import Mathlib

/-!
# Verification of the RAG chatbot's agentic orchestration core

A shallow embedding of `backend/ai_generator.py` (the orchestration loop of
`AIGenerator`) and, modelled from the specification, the Tool Registry
(`search_tools.py`'s `ToolManager`, whose source is not in the tree).

The LLM endpoint (`self.client.messages.create`) is modelled as an oracle
`client : Nat → Except ε Response` mapping the index of the call (0-based,
in the order the calls are issued) to either a raised exception (`.error`)
or the endpoint's response.  The tool manager, as seen by the loop through
`tool_manager.execute_tool(name, **input)`, is modelled as a function
`String → ToolInput → Except String String`, where `.error e` models an
exception whose `str` is `e` and `.ok s` a normal return.

The embedded functions return, besides the final text, the trace of
parameter sets passed to each endpoint call, so that theorems can speak
about the number of calls made and the contents of each call's parameters.
-/

/-- Argument map of a tool invocation (Python `content_block.input`),
kept opaque as an association list. -/
abbrev ToolInput := List (String × String)

/-- A content block of an endpoint response: either a text block (which has
a `text` attribute) or a tool-use block (`type == "tool_use"`, with an
opaque id, a tool name and an argument map, and no `text` attribute). -/
inductive ContentBlock where
  | text (s : String)
  | toolUse (id name : String) (input : ToolInput)
deriving DecidableEq, Repr

/-- The Python `content_block.type` string tag. -/
def ContentBlock.typeStr : ContentBlock → String
  | .text _ => "text"
  | .toolUse _ _ _ => "tool_use"

/-- The Python `hasattr(block, 'text')` probe: `some s` when the block has a
`text` attribute (only text blocks do), `none` otherwise. -/
def ContentBlock.textAttr : ContentBlock → Option String
  | .text s => some s
  | .toolUse _ _ _ => none

/-- The fields of a tool-use block, for stating order/id properties. -/
structure ToolUseData where
  id : String
  name : String
  input : ToolInput
deriving DecidableEq, Repr

/-- View a content block as a tool-use block, when it is one. -/
def ContentBlock.asToolUse : ContentBlock → Option ToolUseData
  | .text _ => none
  | .toolUse id name input => some ⟨id, name, input⟩

/-- An endpoint response: content blocks plus the stop indicator. -/
structure Response where
  content : List ContentBlock
  stop_reason : String
deriving DecidableEq, Repr

/-- A tool-result entry produced by the loop (Python dict with keys
`type: "tool_result"`, `tool_use_id`, `content`, and `is_error` present
exactly in the exception branch; absence of the key is modelled as
`false`). -/
structure ToolResult where
  tool_use_id : String
  content : String
  is_error : Bool
deriving DecidableEq, Repr

/-- The content payload of a conversation message: the initial user turn is
plain text, assistant turns hold the response's content blocks verbatim,
and tool-result turns hold a list of tool-result entries. -/
inductive MessageContent where
  | ofText (s : String)
  | ofBlocks (bs : List ContentBlock)
  | ofResults (rs : List ToolResult)
deriving DecidableEq, Repr

/-- A conversation message: a role tag and a content payload. -/
structure Message where
  role : String
  content : MessageContent
deriving DecidableEq, Repr

/-- The parameter set of one endpoint call, as far as the claims are
concerned: the ordered message list, the system string, and the tool-schema
list — `none` when the `tools` key is absent from the parameter dict
(schemas themselves are opaque strings). -/
structure ApiParams where
  messages : List Message
  system : String
  tools : Option (List String)
deriving DecidableEq, Repr

/-- The tool manager as the loop sees it: `execute_tool(name, **input)`,
with `.error e` modelling a raised exception. -/
abbrev ToolMgrFun := String → ToolInput → Except String String

/-- Constant `AIGenerator.MAX_TOOL_ROUNDS`: maximum number of sequential
tool calling rounds. -/
def MAX_TOOL_ROUNDS : Nat := 2

/-- Constant `AIGenerator.SYSTEM_PROMPT`, the static system prompt
(transcribed verbatim; no claim depends on its wording). -/
def SYSTEM_PROMPT : String := " You are an AI assistant specialized in course materials and educational content with access to tools for course information.

Multi-Step Tool Usage:
- You may use tools up to 2 times per query when complex questions require multiple lookups
- After receiving tool results, you can choose to use another tool if the initial results are insufficient
- Use sequential tools when you need to: search broadly then narrow down, get course outline then search specific content, or compare information across courses

Search Tool Usage:
- Use the search tool for questions about specific course content or detailed educational materials
- If initial search results are insufficient, you may refine your search with different terms
- Synthesize search results into accurate, fact-based responses
- If search yields no results, state this clearly without offering alternatives

Course Outline Tool Usage:
- Use the course outline tool for questions about course structure, lesson lists, or what topics a course covers
- Returns: course title, course link, and complete list of lessons with their numbers, titles, and links
- Use this instead of the search tool when the user asks about course structure, outline, or lesson listings
- Always include the course title, course link, and all lesson information (number, title, link) in your response

Response Protocol:
- **General knowledge questions**: Answer using existing knowledge without searching
- **Course-specific questions**: Search first, then answer (use additional searches if needed)
- **Course structure/outline questions**: Use the outline tool, then present the full course information
- **Complex questions**: You may search, analyze results, then search again or get outlines as needed
- **No meta-commentary**:
 - Provide direct answers only â€” no reasoning process, search explanations, or question-type analysis
 - Do not mention \"based on the search results\" or reference tool usage

All responses must be:
1. **Brief, Concise and focused** - Get to the point quickly
2. **Educational** - Maintain instructional value
3. **Clear** - Use accessible language
4. **Example-supported** - Include relevant examples when they aid understanding
Provide only the direct answer to what was asked.
"

/-- Function `AIGenerator._extract_text_response`: the first content block
carrying a `text` attribute yields the result; if none, the empty string. -/
def extract_text_response (response : Response) : String :=
  (response.content.findSome? ContentBlock.textAttr).getD ""

/-- One iteration of the Python `for content_block in response.content`
body: text blocks are skipped; a tool-use block is executed through the
manager, a raised exception being converted to an error-flagged entry. -/
def executeBlock (tm : ToolMgrFun) (b : ContentBlock) : Option ToolResult :=
  match b with
  | .text _ => none
  | .toolUse id name input =>
    match tm name input with
    | .ok s => some ⟨id, s, false⟩
    | .error e => some ⟨id, "Error executing tool: " ++ e, true⟩

/-- The tool-result list collected in one round (`tool_results` in
`_continue_tool_loop`). -/
def roundToolResults (tm : ToolMgrFun) (content : List ContentBlock) : List ToolResult :=
  content.filterMap (executeBlock tm)

/-- Flag `has_error` of one round: some collected entry is
error-flagged. -/
def roundHasError (tm : ToolMgrFun) (content : List ContentBlock) : Bool :=
  (roundToolResults tm content).any (·.is_error)

/-- Value `new_messages` at the point of the next endpoint call: the incoming
messages, the assistant turn holding the response's blocks verbatim, and —
only when at least one tool result was collected — one user turn batching
all of the round's result entries. -/
def roundMessages (messages : List Message) (response : Response) (tm : ToolMgrFun) :
    List Message :=
  let new_messages := messages ++ [⟨"assistant", .ofBlocks response.content⟩]
  let tool_results := roundToolResults tm response.content
  if tool_results.isEmpty then new_messages
  else new_messages ++ [⟨"user", .ofResults tool_results⟩]

/-- Flag `allow_more_tools = depth < self.MAX_TOOL_ROUNDS and not has_error`. -/
def allowMoreTools (depth : Nat) (has_error : Bool) : Bool :=
  decide (depth < MAX_TOOL_ROUNDS) && !has_error

/-- Function `AIGenerator._continue_tool_loop`: recursively handle tool execution
rounds.  `callIdx` indexes the next endpoint call in the oracle; the
returned trace lists the parameter set of every endpoint call this
invocation issues, in order. -/
def continue_tool_loop {ε : Type} (client : Nat → Except ε Response) (callIdx : Nat)
    (response : Response) (messages : List Message) (system : String)
    (tools : List String) (tm : ToolMgrFun) (depth : Nat) :
    Except ε (String × List ApiParams) :=
  let new_messages := roundMessages messages response tm
  let has_error := roundHasError tm response.content
  let allow := allowMoreTools depth has_error
  let next_params : ApiParams := ⟨new_messages, system, if allow then some tools else none⟩
  match client callIdx with
  | .error e => .error e
  | .ok next_response =>
    if next_response.stop_reason = "tool_use" ∧ allow = true then
      match continue_tool_loop client (callIdx + 1) next_response new_messages system
          tools tm (depth + 1) with
      | .error e => .error e
      | .ok (txt, trace) => .ok (txt, next_params :: trace)
    else
      .ok (extract_text_response next_response, [next_params])
termination_by MAX_TOOL_ROUNDS - depth
decreasing_by
  rename_i h
  have hallow : allowMoreTools depth (roundHasError tm response.content) = true := h.2
  simp only [allowMoreTools, Bool.and_eq_true, decide_eq_true_eq] at hallow
  omega

/-- Python truthiness of the `tools` argument: `None` and the empty list
are falsy. -/
def toolsTruthy : Option (List String) → Bool
  | none => false
  | some [] => false
  | some (_ :: _) => true

/-- Python truthiness of the `conversation_history` argument: `None` and
the empty string are falsy. -/
def historyTruthy : Option String → Bool
  | none => false
  | some h => !(h = "")

/-- The system content built at the top of `generate_response`. -/
def systemContent (conversation_history : Option String) : String :=
  match conversation_history with
  | some h =>
    if h = "" then SYSTEM_PROMPT
    else SYSTEM_PROMPT ++ "\n\nPrevious conversation:\n" ++ h
  | none => SYSTEM_PROMPT

/-- Function `AIGenerator.generate_response`: one user turn holding the query, an
initial endpoint call whose parameters carry the tool schemas exactly when
`tools` is truthy, then the tool loop when the stop indicator is
`"tool_use"` and both a truthy tool list and a tool manager were
supplied. -/
def generate_response {ε : Type} (client : Nat → Except ε Response) (query : String)
    (conversation_history : Option String) (tools : Option (List String))
    (tool_manager : Option ToolMgrFun) :
    Except ε (String × List ApiParams) :=
  let system_content := systemContent conversation_history
  let messages : List Message := [⟨"user", .ofText query⟩]
  let api_params : ApiParams :=
    ⟨messages, system_content, if toolsTruthy tools then tools else none⟩
  match client 0 with
  | .error e => .error e
  | .ok response =>
    match tools, tool_manager with
    | some ts, some tm =>
      if response.stop_reason = "tool_use" ∧ toolsTruthy (some ts) = true then
        match continue_tool_loop client 1 response messages system_content ts tm 1 with
        | .error e => .error e
        | .ok (txt, trace) => .ok (txt, api_params :: trace)
      else
        .ok (extract_text_response response, [api_params])
    | _, _ => .ok (extract_text_response response, [api_params])

/-- The tool-result entry produced for one tool-use block, as a function of
its fields: a successful execution yields the tool output with the error
flag clear, a raised exception yields the descriptive message with the
error flag set. -/
def execEntry (tm : ToolMgrFun) (t : ToolUseData) : ToolResult :=
  match tm t.name t.input with
  | .ok s => ⟨t.id, s, false⟩
  | .error e => ⟨t.id, "Error executing tool: " ++ e, true⟩

/-- Whether executing a content block through the manager raises an
exception (always false for text blocks, which are not executed). -/
def raisesOn (tm : ToolMgrFun) : ContentBlock → Bool
  | .text _ => false
  | .toolUse _ name input =>
    match tm name input with
    | .error _ => true
    | .ok _ => false

/-- The strictly alternating role sequence of length `n` starting from a
user turn: `["user", "assistant", "user", ...]`. -/
def expectedRoles (n : Nat) : List String :=
  (List.range n).map (fun j => if j % 2 = 0 then "user" else "assistant")

lemma executeBlock_eq (tm : ToolMgrFun) (b : ContentBlock) :
    executeBlock tm b = (ContentBlock.asToolUse b).map (execEntry tm) := by
  cases b with
  | text s => rfl
  | toolUse id name input =>
    cases h : tm name input <;>
      simp [executeBlock, ContentBlock.asToolUse, execEntry, h]

lemma roundToolResults_eq (tm : ToolMgrFun) (content : List ContentBlock) :
    roundToolResults tm content =
      (content.filterMap ContentBlock.asToolUse).map (execEntry tm) := by
  rw [roundToolResults, List.map_filterMap]
  exact List.filterMap_congr (fun b _ => executeBlock_eq tm b)

lemma roundToolResults_ne_nil (tm : ToolMgrFun) {content : List ContentBlock}
    (h : content.filterMap ContentBlock.asToolUse ≠ []) :
    roundToolResults tm content ≠ [] := by
  rw [roundToolResults_eq, Ne, List.map_eq_nil_iff]
  exact h

lemma roundHasError_eq_any (tm : ToolMgrFun) (content : List ContentBlock) :
    roundHasError tm content = content.any (raisesOn tm) := by
  induction content with
  | nil => rfl
  | cons b bs ih =>
    rw [roundHasError, roundToolResults] at ih ⊢
    cases b with
    | text s =>
      simp only [List.filterMap_cons, executeBlock, List.any_cons, raisesOn,
        Bool.false_or]
      exact ih
    | toolUse id name input =>
      cases h : tm name input with
      | ok s =>
        simp only [List.filterMap_cons, executeBlock, h, List.any_cons, raisesOn,
          Bool.false_or]
        exact ih
      | error e =>
        simp only [List.filterMap_cons, executeBlock, h, List.any_cons, raisesOn,
          Bool.true_or]

lemma roundMessages_of_ne_nil {tm : ToolMgrFun} (m : List Message)
    (response : Response) (h : roundToolResults tm response.content ≠ []) :
    roundMessages m response tm =
      m ++ [⟨"assistant", .ofBlocks response.content⟩,
            ⟨"user", .ofResults (roundToolResults tm response.content)⟩] := by
  rw [roundMessages]
  simp only [List.isEmpty_iff, h, if_neg, List.append_assoc]
  rfl

lemma roundMessages_of_nil {tm : ToolMgrFun} (m : List Message)
    (response : Response) (h : roundToolResults tm response.content = []) :
    roundMessages m response tm = m ++ [⟨"assistant", .ofBlocks response.content⟩] := by
  rw [roundMessages]
  simp [List.isEmpty_iff, h]

lemma allowMoreTools_of_max_le {depth : Nat} (h : MAX_TOOL_ROUNDS ≤ depth)
    (he : Bool) : allowMoreTools depth he = false := by
  simp [allowMoreTools]
  omega

lemma continue_tool_loop_client_error {ε : Type} {client : Nat → Except ε Response}
    {callIdx : Nat} {e : ε} (response : Response) (m : List Message) (sys : String)
    (ts : List String) (tm : ToolMgrFun) (depth : Nat)
    (h : client callIdx = .error e) :
    continue_tool_loop client callIdx response m sys ts tm depth = .error e := by
  rw [continue_tool_loop.eq_def]
  simp [h]

lemma continue_tool_loop_terminal {ε : Type} {client : Nat → Except ε Response}
    {callIdx : Nat} {nr : Response} (response : Response) (m : List Message)
    (sys : String) (ts : List String) (tm : ToolMgrFun) (depth : Nat)
    (hc : client callIdx = .ok nr)
    (hcond : ¬(nr.stop_reason = "tool_use" ∧
      allowMoreTools depth (roundHasError tm response.content) = true)) :
    continue_tool_loop client callIdx response m sys ts tm depth =
      .ok (extract_text_response nr,
        [⟨roundMessages m response tm, sys,
          if allowMoreTools depth (roundHasError tm response.content) = true
          then some ts else none⟩]) := by
  rw [continue_tool_loop.eq_def]
  simp only [hc, hcond, if_neg, not_false_iff]

lemma continue_tool_loop_step_ok {ε : Type} {client : Nat → Except ε Response}
    {callIdx : Nat} {nr : Response} {txt : String} {trace : List ApiParams}
    (response : Response) (m : List Message) (sys : String) (ts : List String)
    (tm : ToolMgrFun) (depth : Nat)
    (hc : client callIdx = .ok nr) (hs : nr.stop_reason = "tool_use")
    (ha : allowMoreTools depth (roundHasError tm response.content) = true)
    (hrec : continue_tool_loop client (callIdx + 1) nr (roundMessages m response tm)
      sys ts tm (depth + 1) = .ok (txt, trace)) :
    continue_tool_loop client callIdx response m sys ts tm depth =
      .ok (txt, (⟨roundMessages m response tm, sys, some ts⟩ : ApiParams) :: trace) := by
  rw [continue_tool_loop.eq_def]
  simp only [hc, ha, hs, and_self, if_true, hrec, if_pos]

lemma continue_tool_loop_step_error {ε : Type} {client : Nat → Except ε Response}
    {callIdx : Nat} {nr : Response} {e : ε}
    (response : Response) (m : List Message) (sys : String) (ts : List String)
    (tm : ToolMgrFun) (depth : Nat)
    (hc : client callIdx = .ok nr) (hs : nr.stop_reason = "tool_use")
    (ha : allowMoreTools depth (roundHasError tm response.content) = true)
    (hrec : continue_tool_loop client (callIdx + 1) nr (roundMessages m response tm)
      sys ts tm (depth + 1) = .error e) :
    continue_tool_loop client callIdx response m sys ts tm depth = .error e := by
  rw [continue_tool_loop.eq_def]
  simp only [hc, ha, hs, and_self, if_true, hrec, if_pos]

lemma continue_tool_loop_head {ε : Type} {client : Nat → Except ε Response}
    {callIdx : Nat} {response : Response} {m : List Message} {sys : String}
    {ts : List String} {tm : ToolMgrFun} {depth : Nat} {txt : String}
    {trace : List ApiParams}
    (hok : continue_tool_loop client callIdx response m sys ts tm depth =
      .ok (txt, trace)) :
    ∃ rest, trace =
      (⟨roundMessages m response tm, sys,
        if allowMoreTools depth (roundHasError tm response.content) = true
        then some ts else none⟩ : ApiParams) :: rest := by
  rcases hc : client callIdx with e | nr
  · rw [continue_tool_loop_client_error response m sys ts tm depth hc] at hok
    cases hok
  by_cases hcond : nr.stop_reason = "tool_use" ∧
      allowMoreTools depth (roundHasError tm response.content) = true
  · rcases hcond with ⟨hs, ha⟩
    rcases hrec : continue_tool_loop client (callIdx + 1) nr
        (roundMessages m response tm) sys ts tm (depth + 1) with e | p
    · rw [continue_tool_loop_step_error response m sys ts tm depth hc hs ha hrec] at hok
      cases hok
    · rcases p with ⟨txt', trace'⟩
      rw [continue_tool_loop_step_ok response m sys ts tm depth hc hs ha hrec] at hok
      rcases hok with ⟨⟩
      exact ⟨trace', by simp [ha]⟩
  · rw [continue_tool_loop_terminal response m sys ts tm depth hc hcond] at hok
    rcases hok with ⟨⟩
    exact ⟨[], rfl⟩

lemma generate_response_ok_cases {ε : Type} {client : Nat → Except ε Response}
    {q : String} {ch : Option String} {tools : Option (List String)}
    {tmo : Option ToolMgrFun} {txt : String} {tr : List ApiParams}
    (hok : generate_response client q ch tools tmo = .ok (txt, tr)) :
    ∃ r0, client 0 = .ok r0 ∧
      ((tr = [⟨[⟨"user", .ofText q⟩], systemContent ch,
               if toolsTruthy tools = true then tools else none⟩] ∧
        txt = extract_text_response r0 ∧
        (¬(r0.stop_reason = "tool_use") ∨ toolsTruthy tools = false ∨ tmo = none)) ∨
       (∃ ts f r1, tools = some ts ∧ tmo = some f ∧
         r0.stop_reason = "tool_use" ∧ toolsTruthy (some ts) = true ∧
         client 1 = .ok r1 ∧
         ¬(r1.stop_reason = "tool_use" ∧
           allowMoreTools 1 (roundHasError f r0.content) = true) ∧
         tr = [⟨[⟨"user", .ofText q⟩], systemContent ch, some ts⟩,
               ⟨roundMessages [⟨"user", .ofText q⟩] r0 f, systemContent ch,
                if allowMoreTools 1 (roundHasError f r0.content) = true
                then some ts else none⟩] ∧
         txt = extract_text_response r1) ∨
       (∃ ts f r1 r2, tools = some ts ∧ tmo = some f ∧
         r0.stop_reason = "tool_use" ∧ toolsTruthy (some ts) = true ∧
         client 1 = .ok r1 ∧ r1.stop_reason = "tool_use" ∧
         allowMoreTools 1 (roundHasError f r0.content) = true ∧
         client 2 = .ok r2 ∧
         tr = [⟨[⟨"user", .ofText q⟩], systemContent ch, some ts⟩,
               ⟨roundMessages [⟨"user", .ofText q⟩] r0 f, systemContent ch, some ts⟩,
               ⟨roundMessages (roundMessages [⟨"user", .ofText q⟩] r0 f) r1 f,
                systemContent ch, none⟩] ∧
         txt = extract_text_response r2)) := by
  rcases hc0 : client 0 with e | r0
  · rw [generate_response, hc0] at hok
    cases hok
  rcases tools with _ | ts
  · simp only [generate_response, hc0] at hok
    rcases hok with ⟨⟩
    exact ⟨r0, rfl, Or.inl ⟨rfl, rfl, Or.inr (Or.inl rfl)⟩⟩
  rcases tmo with _ | f
  · simp only [generate_response, hc0] at hok
    rcases hok with ⟨⟩
    exact ⟨r0, rfl, Or.inl ⟨rfl, rfl, Or.inr (Or.inr rfl)⟩⟩
  simp only [generate_response, hc0] at hok
  refine ⟨r0, rfl, ?_⟩
  by_cases hcond : r0.stop_reason = "tool_use" ∧ toolsTruthy (some ts) = true
  · rw [if_pos hcond] at hok
    rcases hcond with ⟨hs0, htt⟩
    rcases hloop : continue_tool_loop client 1 r0 [⟨"user", .ofText q⟩]
        (systemContent ch) ts f 1 with e | p <;> rw [hloop] at hok
    · cases hok
    rcases p with ⟨txt', tr'⟩
    rcases hok with ⟨⟩
    rcases hc1 : client 1 with e | r1
    · rw [continue_tool_loop_client_error r0 [⟨"user", .ofText q⟩]
        (systemContent ch) ts f 1 hc1] at hloop
      cases hloop
    by_cases hcond1 : r1.stop_reason = "tool_use" ∧
        allowMoreTools 1 (roundHasError f r0.content) = true
    · rcases hcond1 with ⟨hs1, ha1⟩
      rcases hc2 : client 2 with e | r2
      · rw [continue_tool_loop_step_error r0 [⟨"user", .ofText q⟩]
          (systemContent ch) ts f 1 hc1 hs1 ha1
          (continue_tool_loop_client_error r1
            (roundMessages [⟨"user", .ofText q⟩] r0 f) (systemContent ch) ts f 2 hc2)]
          at hloop
        cases hloop
      · have hfalse : allowMoreTools 2 (roundHasError f r1.content) = false :=
          allowMoreTools_of_max_le (by decide) _
        have h2 : continue_tool_loop client 2 r1
            (roundMessages [⟨"user", .ofText q⟩] r0 f) (systemContent ch) ts f 2 =
              .ok (extract_text_response r2,
                [⟨roundMessages (roundMessages [⟨"user", .ofText q⟩] r0 f) r1 f,
                  systemContent ch, none⟩]) := by
          have hterm := continue_tool_loop_terminal
            r1 (roundMessages [⟨"user", .ofText q⟩] r0 f) (systemContent ch) ts f 2
            hc2 (by simp [hfalse])
          rw [hfalse] at hterm
          simpa using hterm
        rw [continue_tool_loop_step_ok r0 [⟨"user", .ofText q⟩]
          (systemContent ch) ts f 1 hc1 hs1 ha1 h2] at hloop
        rcases hloop with ⟨⟩
        refine Or.inr (Or.inr ⟨ts, f, r1, r2, rfl, rfl, hs0, htt, rfl, hs1, ha1, rfl,
          ?_, rfl⟩)
        simp [htt]
    · rw [continue_tool_loop_terminal r0 [⟨"user", .ofText q⟩]
        (systemContent ch) ts f 1 hc1 hcond1] at hloop
      rcases hloop with ⟨⟩
      refine Or.inr (Or.inl ⟨ts, f, r1, rfl, rfl, hs0, htt, rfl, hcond1, ?_, rfl⟩)
      simp [htt]
  · rw [if_neg hcond] at hok
    rcases hok with ⟨⟩
    refine Or.inl ⟨rfl, rfl, ?_⟩
    rcases not_and_or.mp hcond with h | h
    · exact Or.inl h
    · exact Or.inr (Or.inl (by simpa using h))

/-- A citation (the spec's Citation, the code's "source"): display text and
an optional link. -/
structure Citation where
  text : String
  link : Option String
deriving DecidableEq, Repr

/-- Modelled from the spec: a registered Tool of `search_tools.py`, which is
not in the source tree.  Per the spec's Tool contract, a tool has a name (as
advertised by its schema), an `execute(**args)` returning a text block and —
as a side effect modelled here by returning them — the citation batch that
overwrites the tool's retained citation list; `.error e` models a raised
execution fault.  `last_sources` is the retained citation list of the most
recent execution. -/
structure RegisteredTool where
  name : String
  execute : ToolInput → Except String (String × List Citation)
  last_sources : List Citation

/-- Modelled from the spec: `search_tools.py`'s `ToolManager` (the Tool
Registry), which is not in the source tree.  It owns the registered tools
in registration order. -/
structure ToolManager where
  tools : List RegisteredTool

/-- An ASCII single-quote character as a string (avoids a quote literal). -/
def quoteChar : String := String.singleton (Char.ofNat 39)

/-- Modelled from the spec: the textual `ToolNotFound` error message, the
tool name in single quotes followed by "not found" (returned as text, not
raised). -/
def toolNotFoundMsg (name : String) : String :=
  "Tool " ++ quoteChar ++ name ++ quoteChar ++ " not found"

/-- Modelled from the spec: registering a second tool under an existing
name replaces the first (last write wins); otherwise the tool is appended,
keeping registration order. -/
def ToolManager.register_tool (m : ToolManager) (t : RegisteredTool) : ToolManager :=
  if m.tools.any (fun u => u.name = t.name)
  then ⟨m.tools.map (fun u => if u.name = t.name then t else u)⟩
  else ⟨m.tools ++ [t]⟩

/-- Modelled from the spec: `execute_tool` (the spec's `dispatch(name,
args)`).  An unregistered name yields the textual not-found message (no
exception crosses the registry boundary); a registered name forwards to the
tool's `execute` and returns its text verbatim, recording the new citation
batch on success.  Returns the dispatch result together with the updated
registry state. -/
def ToolManager.execute_tool (m : ToolManager) (name : String) (args : ToolInput) :
    Except String String × ToolManager :=
  match m.tools.find? (fun t => t.name = name) with
  | none => (.ok (toolNotFoundMsg name), m)
  | some t =>
    match t.execute args with
    | .error e => (.error e, m)
    | .ok (txt, cits) =>
      (.ok txt,
       ⟨m.tools.map (fun u => if u.name = name then { u with last_sources := cits } else u)⟩)

/-- Modelled from the spec: `get_last_sources` (the spec's
`drain_citations`): concatenates every registered tool's retained citation
list, in registration order; reading does not mutate the registry. -/
def ToolManager.get_last_sources (m : ToolManager) : List Citation :=
  (m.tools.map (fun t => t.last_sources)).flatten

/-- Modelled from the spec: `reset_sources` (the spec's `reset_citations`):
clears every registered tool's retained citation list. -/
def ToolManager.reset_sources (m : ToolManager) : ToolManager :=
  ⟨m.tools.map (fun t => { t with last_sources := [] })⟩

lemma findSome?_eq_filterMap_head {α β : Type} (f : α → Option β) (l : List α) :
    l.findSome? f = (l.filterMap f).head? := by
  induction l with
  | nil => rfl
  | cons a l ih =>
    rw [List.findSome?_cons, List.filterMap_cons]
    cases h : f a
    · simp only [h]
      exact ih
    · simp only [h, List.head?_cons]

lemma execEntry_id (tm : ToolMgrFun) (t : ToolUseData) :
    (execEntry tm t).tool_use_id = t.id := by
  cases h : tm t.name t.input <;> simp [execEntry, h]

lemma filterMap_asToolUse_length (content : List ContentBlock) :
    (content.filterMap ContentBlock.asToolUse).length =
      (content.filter (fun b => b.typeStr = "tool_use")).length := by
  induction content with
  | nil => rfl
  | cons b bs ih =>
    cases b <;>
      simp [ContentBlock.asToolUse, ContentBlock.typeStr, List.filterMap_cons,
        List.filter_cons, ih]

lemma roles_roundMessages {tm : ToolMgrFun} {r : Response} (m : List Message)
    (h : roundToolResults tm r.content ≠ []) :
    (roundMessages m r tm).map (fun msg => msg.role) =
      m.map (fun msg => msg.role) ++ ["assistant", "user"] ∧
    (roundMessages m r tm).length = m.length + 2 := by
  rw [roundMessages_of_ne_nil m r h]
  simp

lemma generate_response_direct {ε : Type} {client : Nat → Except ε Response}
    {q : String} {ch : Option String} {tools : Option (List String)}
    {tmo : Option ToolMgrFun} {r0 : Response}
    (hc0 : client 0 = .ok r0)
    (h : ¬(r0.stop_reason = "tool_use") ∨ toolsTruthy tools = false ∨ tmo = none) :
    generate_response client q ch tools tmo =
      .ok (extract_text_response r0,
        [⟨[⟨"user", .ofText q⟩], systemContent ch,
          if toolsTruthy tools = true then tools else none⟩]) := by
  rcases tools with _ | ts <;> rcases tmo with _ | f <;>
    simp only [generate_response, hc0]
  rw [if_neg]
  rcases h with h | h | h
  · exact fun hcon => h hcon.1
  · intro hcon
    rw [hcon.2] at h
    cases h
  · cases h

/-- A concrete tool manager for witnesses: the tool named "boom" raises,
every other tool returns "RESULT". -/
def wTm : ToolMgrFun := fun name _ =>
  if name = "boom" then .error "fail" else .ok "RESULT"

/-- A concrete first-round response requesting one tool invocation. -/
def wResp0 : Response := ⟨[.toolUse "id1" "search" [("query", "X")]], "tool_use"⟩

/-- A concrete second-round response requesting one tool invocation. -/
def wResp1 : Response := ⟨[.toolUse "id2" "outline" [("course", "C")]], "tool_use"⟩

/-- A concrete final textual response. -/
def wRespF : Response := ⟨[.text "final answer"], "end_turn"⟩

/-- A concrete endpoint oracle driving two tool rounds then a final text. -/
def wClient : Nat → Except String Response := fun n =>
  if n = 0 then .ok wResp0 else if n = 1 then .ok wResp1 else .ok wRespF

/-- The message list passed to the first endpoint call of the witness run. -/
def wM0 : List Message := [⟨"user", .ofText "q"⟩]

/-- The message list passed to the second endpoint call of the witness run. -/
def wM1 : List Message :=
  wM0 ++ [⟨"assistant", .ofBlocks wResp0.content⟩,
          ⟨"user", .ofResults [⟨"id1", "RESULT", false⟩]⟩]

/-- The message list passed to the third endpoint call of the witness run. -/
def wM2 : List Message :=
  wM1 ++ [⟨"assistant", .ofBlocks wResp1.content⟩,
          ⟨"user", .ofResults [⟨"id2", "RESULT", false⟩]⟩]

lemma wEval : generate_response wClient "q" none (some ["schema"]) (some wTm) =
    .ok ("final answer",
      [⟨wM0, SYSTEM_PROMPT, some ["schema"]⟩,
       ⟨wM1, SYSTEM_PROMPT, some ["schema"]⟩,
       ⟨wM2, SYSTEM_PROMPT, none⟩]) := by
  simp [generate_response, continue_tool_loop, wClient, wTm, wResp0, wResp1, wRespF,
    systemContent, toolsTruthy, roundMessages, roundToolResults, roundHasError,
    executeBlock, allowMoreTools, MAX_TOOL_ROUNDS, extract_text_response,
    wM0, wM1, wM2, ContentBlock.textAttr]

lemma wInv : ∀ i r, wClient i = .ok r → r.stop_reason = "tool_use" →
    r.content.filterMap ContentBlock.asToolUse ≠ [] := by
  intro i r h hs
  rcases i with _ | i
  · simp only [wClient, if_pos, if_true] at h
    cases h
    decide
  rcases i with _ | i
  · simp only [wClient] at h
    norm_num at h
    cases h
    decide
  · simp only [wClient] at h
    norm_num at h
    cases h
    exact absurd hs (by decide)

/-- C1: for every tool round processed by the loop at round counter
`depth`, a further tool round is permitted (`allow_more_tools`) iff `depth`
is strictly below `MAX_TOOL_ROUNDS` and no invocation of the round raised
an execution fault; the parameter set of the round's next endpoint call
carries the tool schemas exactly when permitted, and when not permitted it
omits them (`tools = none`) and the next response's text is extracted even
if its stop indicator requests a tool. -/
theorem claim_c1_round_permission {ε : Type} (client : Nat → Except ε Response)
    (callIdx : Nat) (r : Response) (m : List Message) (sys : String)
    (ts : List String) (tm : ToolMgrFun) (depth : Nat) :
    (allowMoreTools depth (roundHasError tm r.content) = true ↔
      (depth < MAX_TOOL_ROUNDS ∧ roundHasError tm r.content = false)) ∧
    (roundHasError tm r.content = r.content.any (raisesOn tm)) ∧
    (∀ txt tr, continue_tool_loop client callIdx r m sys ts tm depth = .ok (txt, tr) →
      ∃ rest, tr = (⟨roundMessages m r tm, sys,
        if allowMoreTools depth (roundHasError tm r.content) = true
        then some ts else none⟩ : ApiParams) :: rest) ∧
    (∀ nr, allowMoreTools depth (roundHasError tm r.content) = false →
      client callIdx = .ok nr →
      continue_tool_loop client callIdx r m sys ts tm depth =
        .ok (extract_text_response nr, [⟨roundMessages m r tm, sys, none⟩])) := by
  refine ⟨?_, roundHasError_eq_any tm r.content, ?_, ?_⟩
  · simp [allowMoreTools]
  · intro txt tr hok
    exact continue_tool_loop_head hok
  · intro nr hfalse hc
    have hterm := continue_tool_loop_terminal r m sys ts tm depth hc
      (by simp [hfalse])
    rw [hfalse] at hterm
    simpa using hterm

/-- Witness for C1: a round whose single invocation raises (tool "boom")
at round counter 1 forbids a further round, the next call's parameters omit
the schemas, and the next response's text is returned. -/
theorem claim_c1_witness :
    allowMoreTools 1 (roundHasError wTm [ContentBlock.toolUse "idX" "boom" []]) =
      false ∧
    continue_tool_loop (fun _ => (.ok wRespF : Except String Response)) 7
        ⟨[.toolUse "idX" "boom" []], "tool_use"⟩ wM0 "sys" ["schema"] wTm 1 =
      .ok (extract_text_response wRespF,
        [⟨roundMessages wM0 ⟨[.toolUse "idX" "boom" []], "tool_use"⟩ wTm,
          "sys", none⟩]) :=
  ⟨by decide,
   (claim_c1_round_permission (fun _ => (.ok wRespF : Except String Response)) 7
      ⟨[.toolUse "idX" "boom" []], "tool_use"⟩ wM0 "sys" ["schema"] wTm 1).2.2.2
     wRespF (by decide) rfl⟩

/-- C2: for every query, `generate_response` is a total function (the
embedding terminates by construction), issues at most
`MAX_TOOL_ROUNDS + 1 = 3` endpoint calls (so tools are executed in at most
`MAX_TOOL_ROUNDS = 2` rounds), and when a third endpoint call occurs its
parameter set omits the tool schemas and its extracted text is returned
as-is, whatever its stop indicator. -/
theorem claim_c2_call_budget {ε : Type} {client : Nat → Except ε Response}
    {q : String} {ch : Option String} {tools : Option (List String)}
    {tmo : Option ToolMgrFun} {txt : String} {tr : List ApiParams}
    (hok : generate_response client q ch tools tmo = .ok (txt, tr)) :
    tr.length ≤ MAX_TOOL_ROUNDS + 1 ∧
    ∀ p, tr[MAX_TOOL_ROUNDS]? = some p →
      p.tools = none ∧
      ∃ r, client MAX_TOOL_ROUNDS = .ok r ∧ txt = extract_text_response r := by
  rcases generate_response_ok_cases hok with ⟨r0, hc0, hA | hB | hC⟩
  · obtain ⟨htr, -, -⟩ := hA
    subst htr
    refine ⟨by simp [MAX_TOOL_ROUNDS], ?_⟩
    intro p hp
    rw [show MAX_TOOL_ROUNDS = 2 from rfl] at hp
    simp at hp
  · obtain ⟨ts, f, r1, -, -, -, -, hc1, -, htr, -⟩ := hB
    subst htr
    refine ⟨by simp [MAX_TOOL_ROUNDS], ?_⟩
    intro p hp
    rw [show MAX_TOOL_ROUNDS = 2 from rfl] at hp
    simp at hp
  · obtain ⟨ts, f, r1, r2, -, -, -, -, hc1, -, -, hc2, htr, htxt⟩ := hC
    subst htr
    refine ⟨by simp [MAX_TOOL_ROUNDS], ?_⟩
    intro p hp
    rw [show MAX_TOOL_ROUNDS = 2 from rfl] at hp
    simp at hp
    subst hp
    exact ⟨rfl, r2, hc2, htxt⟩

/-- Witness for C2: the two-tool-round witness run makes exactly three
endpoint calls, the third one's parameters omit the schemas and its text is
the returned answer. -/
theorem claim_c2_witness :
    ([⟨wM0, SYSTEM_PROMPT, some ["schema"]⟩,
      ⟨wM1, SYSTEM_PROMPT, some ["schema"]⟩,
      ⟨wM2, SYSTEM_PROMPT, none⟩] : List ApiParams).length ≤ MAX_TOOL_ROUNDS + 1 ∧
    ∀ p, ([⟨wM0, SYSTEM_PROMPT, some ["schema"]⟩,
      ⟨wM1, SYSTEM_PROMPT, some ["schema"]⟩,
      ⟨wM2, SYSTEM_PROMPT, none⟩] : List ApiParams)[MAX_TOOL_ROUNDS]? = some p →
      p.tools = none ∧
      ∃ r, wClient MAX_TOOL_ROUNDS = .ok r ∧
        "final answer" = extract_text_response r :=
  claim_c2_call_budget wEval

/-- An endpoint oracle whose first response carries no tool-invocation
blocks yet reports stop indicator "tool_use", then answers with text. -/
def c3Client : Nat → Except String Response := fun n =>
  if n = 0 then .ok ⟨[.text "hi"], "tool_use"⟩
  else .ok ⟨[.text "second"], "end_turn"⟩

/-- Counterexample to C3 as stated: the first endpoint response has no
tool-invocation blocks (its only block is text "hi"), tool schemas and a
tool manager were supplied, yet two endpoint calls occur and the returned
text is the second response's "second", not the first response's "hi" —
the code gates the loop on the stop indicator, not on the presence of
tool-invocation blocks. -/
theorem claim_c3_counterexample :
    (∀ b ∈ (⟨[ContentBlock.text "hi"], "tool_use"⟩ : Response).content,
      ContentBlock.asToolUse b = none) ∧
    c3Client 0 = .ok ⟨[.text "hi"], "tool_use"⟩ ∧
    ∃ txt tr, generate_response c3Client "q" none (some ["schema"]) (some wTm) =
      .ok (txt, tr) ∧ tr.length = 2 ∧ txt = "second" ∧ txt ≠ "hi" := by
  refine ⟨by decide, rfl,
    "second",
    [⟨[⟨"user", .ofText "q"⟩], SYSTEM_PROMPT, some ["schema"]⟩,
     ⟨[⟨"user", .ofText "q"⟩, ⟨"assistant", .ofBlocks [.text "hi"]⟩],
      SYSTEM_PROMPT, some ["schema"]⟩], ?_, rfl, rfl, by decide⟩
  simp [generate_response, continue_tool_loop, c3Client, systemContent,
    toolsTruthy, roundMessages, roundToolResults, roundHasError, executeBlock,
    allowMoreTools, MAX_TOOL_ROUNDS, extract_text_response, ContentBlock.textAttr]

/-- C3 as amended: for every query whose first endpoint response has a stop
indicator other than "tool_use" — or whenever tool schemas or the tool
manager were not supplied — exactly one endpoint call occurs and
`generate_response` returns the text of the first content block of that
response carrying a text field; if no such block exists it returns the
empty string, still succeeding. -/
theorem claim_c3_single_call {ε : Type} (client : Nat → Except ε Response)
    (q : String) (ch : Option String) (tools : Option (List String))
    (tmo : Option ToolMgrFun) (r0 : Response)
    (hc0 : client 0 = .ok r0)
    (h : ¬(r0.stop_reason = "tool_use") ∨ toolsTruthy tools = false ∨ tmo = none) :
    generate_response client q ch tools tmo =
      .ok (extract_text_response r0,
        [⟨[⟨"user", .ofText q⟩], systemContent ch,
          if toolsTruthy tools = true then tools else none⟩]) ∧
    (r0.content.filterMap ContentBlock.textAttr = [] →
      extract_text_response r0 = "") ∧
    (∀ s rest, r0.content.filterMap ContentBlock.textAttr = s :: rest →
      extract_text_response r0 = s) := by
  refine ⟨generate_response_direct hc0 h, ?_, ?_⟩
  · intro hnil
    rw [extract_text_response, findSome?_eq_filterMap_head, hnil]
    rfl
  · intro s rest hcons
    rw [extract_text_response, findSome?_eq_filterMap_head, hcons]
    rfl

/-- Witness for the amended C3: a first response with stop indicator
"end_turn" and no content blocks yields one endpoint call and the empty
string. -/
theorem claim_c3_witness :
    generate_response (fun _ => (.ok ⟨[], "end_turn"⟩ : Except String Response))
        "q" none none none =
      .ok (extract_text_response ⟨[], "end_turn"⟩,
        [⟨[⟨"user", .ofText "q"⟩], systemContent none,
          if toolsTruthy none = true then none else none⟩]) ∧
    ((⟨[], "end_turn"⟩ : Response).content.filterMap ContentBlock.textAttr = [] →
      extract_text_response ⟨[], "end_turn"⟩ = "") ∧
    (∀ s rest,
      (⟨[], "end_turn"⟩ : Response).content.filterMap ContentBlock.textAttr =
        s :: rest →
      extract_text_response ⟨[], "end_turn"⟩ = s) :=
  claim_c3_single_call (fun _ => (.ok ⟨[], "end_turn"⟩ : Except String Response))
    "q" none none none ⟨[], "end_turn"⟩ rfl (Or.inl (by decide))

/-- C4: in every round, the collected tool-result list has exactly one
entry per tool-invocation block of the response, in input order (it is the
pointwise image of the tool-use blocks); an invocation whose execution
raises yields an error-flagged entry whose content is "Error executing
tool: " followed by the exception text, and every other invocation of the
same round still executes and yields its own entry. -/
theorem claim_c4_error_isolation (tm : ToolMgrFun) (content : List ContentBlock) :
    roundToolResults tm content =
      (content.filterMap ContentBlock.asToolUse).map (execEntry tm) ∧
    (roundToolResults tm content).length =
      (content.filter (fun b => b.typeStr = "tool_use")).length ∧
    (∀ id name inp e, ContentBlock.toolUse id name inp ∈ content →
      tm name inp = .error e →
      (⟨id, "Error executing tool: " ++ e, true⟩ : ToolResult) ∈
        roundToolResults tm content) ∧
    (∀ id name inp s, ContentBlock.toolUse id name inp ∈ content →
      tm name inp = .ok s →
      (⟨id, s, false⟩ : ToolResult) ∈ roundToolResults tm content) := by
  refine ⟨roundToolResults_eq tm content, ?_, ?_, ?_⟩
  · rw [roundToolResults_eq]
    simp [filterMap_asToolUse_length]
  · intro id name inp e hmem herr
    rw [roundToolResults_eq]
    refine List.mem_map.mpr ⟨⟨id, name, inp⟩,
      List.mem_filterMap.mpr ⟨_, hmem, rfl⟩, ?_⟩
    simp [execEntry, herr]
  · intro id name inp s hmem hokk
    rw [roundToolResults_eq]
    refine List.mem_map.mpr ⟨⟨id, name, inp⟩,
      List.mem_filterMap.mpr ⟨_, hmem, rfl⟩, ?_⟩
    simp [execEntry, hokk]

/-- Witness for C4: a round with a raising invocation ("boom"), a
succeeding invocation and a text block yields exactly two entries, the
error-flagged one for "boom" and the normal one for the sibling. -/
theorem claim_c4_witness :
    (⟨"a", "Error executing tool: " ++ "fail", true⟩ : ToolResult) ∈
      roundToolResults wTm
        [ContentBlock.toolUse "a" "boom" [], .toolUse "b" "good" [], .text "t"] ∧
    (⟨"b", "RESULT", false⟩ : ToolResult) ∈
      roundToolResults wTm
        [ContentBlock.toolUse "a" "boom" [], .toolUse "b" "good" [], .text "t"] ∧
    (roundToolResults wTm
        [ContentBlock.toolUse "a" "boom" [], .toolUse "b" "good" [], .text "t"]).length = 2 :=
  ⟨(claim_c4_error_isolation wTm _).2.2.1 "a" "boom" [] "fail" (by decide) rfl,
   (claim_c4_error_isolation wTm _).2.2.2 "b" "good" [] "RESULT" (by decide) rfl,
   by decide⟩

lemma expectedRoles_one : expectedRoles 1 = ["user"] := by decide

lemma expectedRoles_three : expectedRoles 3 = ["user", "assistant", "user"] := by decide

lemma expectedRoles_five :
    expectedRoles 5 = ["user", "assistant", "user", "assistant", "user"] := by decide

/-- C5: across the rounds of one query (every processed tool round carrying
at least one invocation), the message sequence is append-only: the list
passed to call `n` is extended — never mutated — by exactly one assistant
turn and one user turn batching all of the round's tool results to form the
list passed to call `n + 1` (hence a strict prefix), and the list passed to
call `n` alternates roles user/assistant starting from the single initial
user turn, with exactly `1 + 2n` messages. -/
theorem claim_c5_message_growth {ε : Type} {client : Nat → Except ε Response}
    {q : String} {ch : Option String} {tools : Option (List String)}
    {tmo : Option ToolMgrFun} {txt : String} {tr : List ApiParams}
    (hok : generate_response client q ch tools tmo = .ok (txt, tr))
    (hinv : ∀ i r, client i = .ok r → r.stop_reason = "tool_use" →
      r.content.filterMap ContentBlock.asToolUse ≠ []) :
    (∀ i p p', tr[i]? = some p → tr[i + 1]? = some p' →
      ∃ bs rs, rs ≠ [] ∧
        p'.messages = p.messages ++
          [⟨"assistant", .ofBlocks bs⟩, ⟨"user", .ofResults rs⟩] ∧
        p.messages.length < p'.messages.length) ∧
    (∀ i p, tr[i]? = some p →
      p.messages.map (fun msg => msg.role) = expectedRoles (1 + 2 * i) ∧
      p.messages.length = 1 + 2 * i) := by
  rcases generate_response_ok_cases hok with ⟨r0, hc0, hA | hB | hC⟩
  · obtain ⟨htr, -, -⟩ := hA
    subst htr
    constructor
    · intro i p p' hp hp'
      rcases i with _ | i <;> simp at hp'
    · intro i p hp
      rcases i with _ | i
      · simp at hp
        subst hp
        simp [expectedRoles_one]
      · simp at hp
  · obtain ⟨ts, f, r1, -, -, hs0, -, hc1, -, htr, -⟩ := hB
    subst htr
    have hne0 : roundToolResults f r0.content ≠ [] :=
      roundToolResults_ne_nil f (hinv 0 r0 hc0 hs0)
    have hm1 := roundMessages_of_ne_nil [⟨"user", MessageContent.ofText q⟩] r0 hne0
    constructor
    · intro i p p' hp hp'
      rcases i with _ | i
      · simp at hp hp'
        subst hp
        subst hp'
        exact ⟨r0.content, roundToolResults f r0.content, hne0, by simp [hm1],
          by simp [hm1]⟩
      · rcases i with _ | i <;> simp at hp'
    · intro i p hp
      rcases i with _ | i
      · simp at hp
        subst hp
        simp [expectedRoles_one]
      rcases i with _ | i
      · simp at hp
        subst hp
        refine ⟨?_, ?_⟩
        · rw [hm1]
          simp [expectedRoles_three]
        · rw [hm1]
          simp
      · simp at hp
  · obtain ⟨ts, f, r1, r2, -, -, hs0, -, hc1, hs1, -, hc2, htr, -⟩ := hC
    subst htr
    have hne0 : roundToolResults f r0.content ≠ [] :=
      roundToolResults_ne_nil f (hinv 0 r0 hc0 hs0)
    have hne1 : roundToolResults f r1.content ≠ [] :=
      roundToolResults_ne_nil f (hinv 1 r1 hc1 hs1)
    have hm1 := roundMessages_of_ne_nil [⟨"user", MessageContent.ofText q⟩] r0 hne0
    have hm2 := roundMessages_of_ne_nil
      (roundMessages [⟨"user", MessageContent.ofText q⟩] r0 f) r1 hne1
    constructor
    · intro i p p' hp hp'
      rcases i with _ | i
      · simp at hp hp'
        subst hp
        subst hp'
        exact ⟨r0.content, roundToolResults f r0.content, hne0, by simp [hm1],
          by simp [hm1]⟩
      rcases i with _ | i
      · simp at hp hp'
        subst hp
        subst hp'
        exact ⟨r1.content, roundToolResults f r1.content, hne1, by simp [hm2],
          by rw [hm2]; simp⟩
      · rcases i with _ | i <;> simp at hp'
    · intro i p hp
      rcases i with _ | i
      · simp at hp
        subst hp
        simp [expectedRoles_one]
      rcases i with _ | i
      · simp at hp
        subst hp
        refine ⟨?_, ?_⟩
        · rw [hm1]
          simp [expectedRoles_three]
        · rw [hm1]
          simp
      rcases i with _ | i
      · simp at hp
        subst hp
        refine ⟨?_, ?_⟩
        · rw [hm2, hm1]
          simp [expectedRoles_five]
        · rw [hm2, hm1]
          simp
      · simp at hp

/-- Witness for C5: in the two-round witness run, consecutive call
parameter lists grow by an assistant turn plus a batched result turn, and
every call's message list alternates roles with length `1 + 2n`. -/
theorem claim_c5_witness :
    (∀ i p p', ([⟨wM0, SYSTEM_PROMPT, some ["schema"]⟩,
      ⟨wM1, SYSTEM_PROMPT, some ["schema"]⟩,
      ⟨wM2, SYSTEM_PROMPT, none⟩] : List ApiParams)[i]? = some p →
      ([⟨wM0, SYSTEM_PROMPT, some ["schema"]⟩,
        ⟨wM1, SYSTEM_PROMPT, some ["schema"]⟩,
        ⟨wM2, SYSTEM_PROMPT, none⟩] : List ApiParams)[i + 1]? = some p' →
      ∃ bs rs, rs ≠ [] ∧
        p'.messages = p.messages ++
          [⟨"assistant", .ofBlocks bs⟩, ⟨"user", .ofResults rs⟩] ∧
        p.messages.length < p'.messages.length) ∧
    (∀ i p, ([⟨wM0, SYSTEM_PROMPT, some ["schema"]⟩,
      ⟨wM1, SYSTEM_PROMPT, some ["schema"]⟩,
      ⟨wM2, SYSTEM_PROMPT, none⟩] : List ApiParams)[i]? = some p →
      p.messages.map (fun msg => msg.role) = expectedRoles (1 + 2 * i) ∧
      p.messages.length = 1 + 2 * i) :=
  claim_c5_message_growth wEval wInv

/-- C6: in every executed tool round, each result entry carries the
`tool_use_id` of the tool-invocation block that produced it and the entries
appear in the same order as the blocks (their id sequence is the blocks' id
sequence); the round's entries form the content of one user-role message
appended immediately after the assistant message holding the invocation
blocks; and this message list is what the round's next endpoint call
receives. -/
theorem claim_c6_result_correlation {ε : Type} (client : Nat → Except ε Response)
    (callIdx : Nat) (r : Response) (m : List Message) (sys : String)
    (ts : List String) (tm : ToolMgrFun) (depth : Nat) :
    ((roundToolResults tm r.content).map (fun en => en.tool_use_id) =
      (r.content.filterMap ContentBlock.asToolUse).map (fun t => t.id)) ∧
    (roundToolResults tm r.content ≠ [] →
      roundMessages m r tm =
        m ++ [⟨"assistant", .ofBlocks r.content⟩,
              ⟨"user", .ofResults (roundToolResults tm r.content)⟩]) ∧
    (∀ txt tr, continue_tool_loop client callIdx r m sys ts tm depth = .ok (txt, tr) →
      ∃ p rest, tr = p :: rest ∧ p.messages = roundMessages m r tm) := by
  refine ⟨?_, roundMessages_of_ne_nil m r, ?_⟩
  · rw [roundToolResults_eq, List.map_map]
    exact List.map_congr_left (fun t _ => execEntry_id tm t)
  · intro txt tr hok
    obtain ⟨rest, hrest⟩ := continue_tool_loop_head hok
    exact ⟨_, rest, hrest, rfl⟩

/-- Witness for C6: the witness round on `wResp0` produces the single entry
for invocation "id1", batched into the user turn following the assistant
turn, and the next call's head parameter carries that message list. -/
theorem claim_c6_witness :
    ((roundToolResults wTm wResp0.content).map (fun en => en.tool_use_id) =
      (wResp0.content.filterMap ContentBlock.asToolUse).map (fun t => t.id)) ∧
    (roundToolResults wTm wResp0.content ≠ [] →
      roundMessages wM0 wResp0 wTm =
        wM0 ++ [⟨"assistant", .ofBlocks wResp0.content⟩,
                ⟨"user", .ofResults (roundToolResults wTm wResp0.content)⟩]) ∧
    (∀ txt tr, continue_tool_loop (fun _ => (.ok wRespF : Except String Response)) 5
        wResp0 wM0 "sys" ["schema"] wTm 2 = .ok (txt, tr) →
      ∃ p rest, tr = p :: rest ∧ p.messages = roundMessages wM0 wResp0 wTm) :=
  claim_c6_result_correlation (fun _ => (.ok wRespF : Except String Response)) 5
    wResp0 wM0 "sys" ["schema"] wTm 2

/-- C7: an exception raised by the LLM endpoint client at any round
propagates unchanged to the caller of `generate_response`: neither the
initial call nor any call made inside the tool loop is wrapped in a local
handler, and no retry is made. -/
theorem claim_c7_endpoint_fault_propagates {ε : Type}
    (client : Nat → Except ε Response) (q : String) (ch : Option String)
    (tools : Option (List String)) (tmo : Option ToolMgrFun) (e : ε) :
    (client 0 = .error e → generate_response client q ch tools tmo = .error e) ∧
    (∀ callIdx r m sys ts tm depth, client callIdx = .error e →
      continue_tool_loop client callIdx r m sys ts tm depth = .error e) := by
  constructor
  · intro h
    rw [generate_response, h]
  · intro callIdx r m sys ts tm depth h
    exact continue_tool_loop_client_error r m sys ts tm depth h

/-- Witness for C7: a client that raises "rate limited" makes
`generate_response` and the loop surface exactly that fault. -/
theorem claim_c7_witness :
    generate_response (fun _ => (.error "rate limited" : Except String Response))
        "q" none (some ["schema"]) (some wTm) = .error "rate limited" ∧
    continue_tool_loop (fun _ => (.error "rate limited" : Except String Response))
        3 wResp0 wM0 "sys" ["schema"] wTm 1 = .error "rate limited" :=
  ⟨(claim_c7_endpoint_fault_propagates
      (fun _ => (.error "rate limited" : Except String Response)) "q" none
      (some ["schema"]) (some wTm) "rate limited").1 rfl,
   (claim_c7_endpoint_fault_propagates
      (fun _ => (.error "rate limited" : Except String Response)) "q" none
      (some ["schema"]) (some wTm) "rate limited").2 3 wResp0 wM0 "sys" ["schema"]
      wTm 1 rfl⟩

/-- C8: dispatching an unregistered tool name returns a textual message
containing "not found" — wrapped in `.ok`, so no exception crosses the
registry boundary — while dispatching a registered name forwards to that
tool's `execute` and returns its text verbatim. -/
theorem claim_c8_dispatch (m : ToolManager) (name : String) (args : ToolInput) :
    (m.tools.find? (fun t => t.name = name) = none →
      (m.execute_tool name args).1 = .ok (toolNotFoundMsg name) ∧
      ∃ pre post, toolNotFoundMsg name = pre ++ "not found" ++ post) ∧
    (∀ t, m.tools.find? (fun u => u.name = name) = some t →
      (m.execute_tool name args).1 = (t.execute args).map Prod.fst) := by
  constructor
  · intro h
    refine ⟨by simp [ToolManager.execute_tool, h],
      "Tool " ++ quoteChar ++ name ++ quoteChar ++ " ", "", ?_⟩
    simp [toolNotFoundMsg, String.append_assoc, String.append_empty]
  · intro t ht
    rcases he : t.execute args with e | p
    · simp [ToolManager.execute_tool, ht, he, Except.map]
    · rcases p with ⟨txt, cits⟩
      simp [ToolManager.execute_tool, ht, he, Except.map]

/-- A concrete registered tool for the C8 witness. -/
def wRegTool : RegisteredTool :=
  ⟨"search", fun _ => .ok ("formatted results", [⟨"Course - Lesson 1", some "link"⟩]),
   []⟩

/-- Witness for C8: the empty registry answers an unknown name with the
not-found text, and a one-tool registry forwards to that tool. -/
theorem claim_c8_witness :
    ((⟨[]⟩ : ToolManager).execute_tool "mystery" []).1 =
      .ok (toolNotFoundMsg "mystery") ∧
    (∃ pre post, toolNotFoundMsg "mystery" = pre ++ "not found" ++ post) ∧
    ((⟨[wRegTool]⟩ : ToolManager).execute_tool "search" []).1 =
      (wRegTool.execute []).map Prod.fst :=
  ⟨((claim_c8_dispatch ⟨[]⟩ "mystery" []).1 rfl).1,
   ((claim_c8_dispatch ⟨[]⟩ "mystery" []).1 rfl).2,
   (claim_c8_dispatch ⟨[wRegTool]⟩ "search" []).2 wRegTool rfl⟩

/-- C9: resetting the citation side-channel clears every registered tool's
retained citation list, so a drain after a drain-then-reset sequence with
no intervening tool execution returns the empty list (draining itself is a
pure read and does not change the registry). -/
theorem claim_c9_reset_clears (m : ToolManager) :
    ToolManager.get_last_sources (ToolManager.reset_sources m) = [] ∧
    ∀ t ∈ (ToolManager.reset_sources m).tools, t.last_sources = [] := by
  constructor
  · simp [ToolManager.get_last_sources, ToolManager.reset_sources, List.map_map,
      Function.comp, List.flatten_eq_nil_iff]
  · intro t ht
    simp only [ToolManager.reset_sources, List.mem_map] at ht
    obtain ⟨u, -, hu⟩ := ht
    rw [← hu]

/-- C10: a response handled inside the tool loop whose stop indicator is
"tool_use" but whose content holds no tool-invocation blocks produces no
tool-result entry and no tool-result user turn — the next call's message
list ends with the just-appended assistant turn — and the next endpoint
call is still issued, its answer being extracted as usual. -/
theorem claim_c10_tool_use_without_blocks {ε : Type}
    (client : Nat → Except ε Response) (callIdx : Nat) (r : Response)
    (m : List Message) (sys : String) (ts : List String) (tm : ToolMgrFun)
    (depth : Nat) (nr : Response)
    (_hstop : r.stop_reason = "tool_use")
    (hnone : ∀ b ∈ r.content, ContentBlock.asToolUse b = none) :
    roundToolResults tm r.content = [] ∧
    roundMessages m r tm = m ++ [⟨"assistant", .ofBlocks r.content⟩] ∧
    (client callIdx = .ok nr → nr.stop_reason ≠ "tool_use" →
      continue_tool_loop client callIdx r m sys ts tm depth =
        .ok (extract_text_response nr,
          [⟨m ++ [⟨"assistant", .ofBlocks r.content⟩], sys,
            if allowMoreTools depth false = true then some ts else none⟩])) := by
  have hres : roundToolResults tm r.content = [] := by
    rw [roundToolResults_eq, List.filterMap_eq_nil_iff.mpr hnone]
    rfl
  have hhe : roundHasError tm r.content = false := by
    rw [roundHasError, hres]
    rfl
  have hmsg := roundMessages_of_nil m r hres
  refine ⟨hres, hmsg, ?_⟩
  intro hc hs
  have hterm := continue_tool_loop_terminal r m sys ts tm depth hc
    (fun hcon => hs hcon.1)
  rw [hhe, hmsg] at hterm
  exact hterm

/-- Witness for C10: a "tool_use" response whose only block is text causes
no result turn, and the loop still issues the next endpoint call, returning
its text. -/
theorem claim_c10_witness :
    roundToolResults wTm [ContentBlock.text "thinking"] = [] ∧
    continue_tool_loop (fun _ => (.ok wRespF : Except String Response)) 4
        ⟨[.text "thinking"], "tool_use"⟩ wM0 "sys" ["schema"] wTm 1 =
      .ok (extract_text_response wRespF,
        [⟨wM0 ++ [⟨"assistant", .ofBlocks [.text "thinking"]⟩], "sys",
          if allowMoreTools 1 false = true then some ["schema"] else none⟩]) :=
  ⟨(claim_c10_tool_use_without_blocks
      (fun _ => (.ok wRespF : Except String Response)) 4
      ⟨[.text "thinking"], "tool_use"⟩ wM0 "sys" ["schema"] wTm 1 wRespF rfl
      (by decide)).1,
   (claim_c10_tool_use_without_blocks
      (fun _ => (.ok wRespF : Except String Response)) 4
      ⟨[.text "thinking"], "tool_use"⟩ wM0 "sys" ["schema"] wTm 1 wRespF rfl
      (by decide)).2.2 rfl (by decide)⟩
